import Mathlib

/-!
Verification development for the document-ingestion and retrieval pipeline of
`vector_database.py` (the chunking + retrieval core of the repository).

The Python module is shallowly embedded as pure Lean functions over an explicit
state:

* `PState` models the remote vector-index service state together with the
  module-global `_vector_db` handle and a log of external service calls.
* External services (embedding, index store, filesystem) are oracles carried in
  `Env` / `FileSys`; transient failures are injected through `Option PyError`
  fields, mirroring exceptions raised by the SDK calls.
* Relevance scores are modelled as rationals (`Rat`); the claims under study
  depend only on their ordering, not on floating-point rounding.
* Printing to stdout is a side effect invisible to callers and is not modelled;
  only the values returned to the caller (and raised exceptions) are.
-/

namespace VectorDatabase

/-- A loaded document: full text plus source-path metadata
(langchain `Document` as produced by the loaders in `load_documents`). -/
structure Document where
  text : String
  source : String
deriving DecidableEq

/-- A chunk produced by the splitter: a slice of a document's text, the
inherited source path, and the starting character offset in the document
(`add_start_index=True`). -/
structure Chunk where
  text : String
  source : String
  startIndex : Nat
deriving DecidableEq

/-- Python exceptions that the embedded code can raise or catch. -/
inductive PyError where
  | valueError (msg : String)
  | unicodeDecodeError (msg : String)
  | serviceError (msg : String)
deriving DecidableEq

/-- Python's `str(e)`: the message carried by the exception. -/
def errStr : PyError → String
  | .valueError m => m
  | .unicodeDecodeError m => m
  | .serviceError m => m

/-! ## Splitter

`text_spliter` in the source delegates to langchain's
`RecursiveCharacterTextSplitter(chunk_size=500, chunk_overlap=100,
length_function=len, add_start_index=True)`, whose code is not part of this
repository. -/

/-- Modelled from the spec: the body of langchain's
`RecursiveCharacterTextSplitter.split_documents` is not under `src/`.  Per
§4.2 the splitter works character-by-character with a hard `chunk_size`
ceiling, and per the data model consecutive chunks overlap by exactly
`overlap_size` characters, i.e. successive chunks start `chunk_size -
chunk_overlap` characters apart; the paragraph/sentence boundary preference is
a refinement inside those invariants and is not modelled.  `stride1 + 1` is
the stride (`chunk_size - chunk_overlap`); the `Nat` fuel argument is an upper
bound on the recursion depth (one step consumes at least one character). -/
def splitCharsAux (size stride1 : Nat) : Nat → List Char → Nat → List (List Char × Nat)
  | 0, cs, start => [(cs, start)]
  | Nat.succ n, cs, start =>
    if cs.length ≤ size then [(cs, start)]
    else (cs.take size, start) ::
      splitCharsAux size stride1 n (cs.drop (stride1 + 1)) (start + (stride1 + 1))

/-- Modelled from the spec: split a character sequence into chunks of at most
`size` characters, successive chunks starting `stride1 + 1` characters apart. -/
def splitChars (size stride1 : Nat) (cs : List Char) : List (List Char × Nat) :=
  splitCharsAux size stride1 cs.length cs 0

/-- Modelled from the spec: split one Document into Chunks with
`chunk_size = 500` and `chunk_overlap = 100` (stride 400), recording start
offsets; an empty document yields no chunks. -/
def splitDocument (d : Document) : List Chunk :=
  if d.text.data = [] then []
  else (splitChars 500 399 d.text.data).map fun p => ⟨String.mk p.1, d.source, p.2⟩

/-- `text_spliter` from the source: split every document, concatenating the
chunk lists in document order. -/
def text_spliter (documents : List Document) : List Chunk :=
  documents.foldr (fun d acc => splitDocument d ++ acc) []

/-- Every chunk `splitCharsAux` produces holds at most `size` characters,
provided the fuel covers the input length. -/
theorem splitCharsAux_chunk_le (size stride1 : Nat) :
    ∀ (n : Nat) (cs : List Char) (start : Nat), cs.length ≤ n →
      ∀ p ∈ splitCharsAux size stride1 n cs start, p.1.length ≤ size := by
  intro n
  induction n with
  | zero =>
    intro cs start hlen p hp
    have hnil : cs = [] := List.eq_nil_of_length_eq_zero (Nat.le_zero.mp hlen)
    subst hnil
    simp only [splitCharsAux, List.mem_singleton] at hp
    subst hp
    simp
  | succ n ih =>
    intro cs start hlen p hp
    by_cases hle : cs.length ≤ size
    · simp only [splitCharsAux, if_pos hle, List.mem_singleton] at hp
      subst hp
      exact hle
    · simp only [splitCharsAux, if_neg hle, List.mem_cons] at hp
      rcases hp with hp | hp
      · subst hp
        simp [List.length_take]
      · refine ih (cs.drop (stride1 + 1)) (start + (stride1 + 1)) ?_ p hp
        simp only [List.length_drop]
        omega

/-- Membership in `text_spliter` comes from membership in some document's
split. -/
theorem mem_text_spliter {c : Chunk} :
    ∀ {docs : List Document}, c ∈ text_spliter docs →
      ∃ d ∈ docs, c ∈ splitDocument d := by
  intro docs
  induction docs with
  | nil => intro h; simp [text_spliter] at h
  | cons d ds ih =>
    intro h
    simp only [text_spliter, List.foldr_cons, List.mem_append] at h
    rcases h with h | h
    · exact ⟨d, List.mem_cons_self d ds, h⟩
    · rcases ih h with ⟨d0, hd0, hc⟩
      exact ⟨d0, List.mem_cons_of_mem d hd0, hc⟩

/-- C5: for every list of Documents, every Chunk produced by the splitter has
text of length at most `chunk_size = 500` characters. -/
theorem C5_chunk_size_bound (docs : List Document) (c : Chunk)
    (hc : c ∈ text_spliter docs) : c.text.length ≤ 500 := by
  rcases mem_text_spliter hc with ⟨d, _, hcd⟩
  unfold splitDocument at hcd
  by_cases hnil : d.text.data = []
  · simp [hnil] at hcd
  · simp only [if_neg hnil, List.mem_map] at hcd
    rcases hcd with ⟨p, hp, hpc⟩
    subst hpc
    simpa [String.length_mk] using
      splitCharsAux_chunk_le 500 399 d.text.data.length d.text.data 0 le_rfl p hp

theorem C5_chunk_size_bound_witness :
    (⟨"hello", "a.txt", 0⟩ : Chunk) ∈ text_spliter [⟨"hello", "a.txt"⟩] ∧
      (⟨"hello", "a.txt", 0⟩ : Chunk).text.length ≤ 500 :=
  ⟨by decide, C5_chunk_size_bound [⟨"hello", "a.txt"⟩] ⟨"hello", "a.txt", 0⟩ (by decide)⟩

/-- The first chunk `splitCharsAux 500 399` produces starts at `start` and its
first 100 characters are the first 100 characters of the input. -/
theorem splitCharsAux_head (n : Nat) (cs : List Char) (start : Nat) :
    ∃ t rest, splitCharsAux 500 399 n cs start = (t, start) :: rest ∧
      t.take 100 = cs.take 100 := by
  cases n with
  | zero => exact ⟨cs, [], rfl, rfl⟩
  | succ n =>
    by_cases hle : cs.length ≤ 500
    · exact ⟨cs, [], by simp [splitCharsAux, if_pos hle], rfl⟩
    · refine ⟨cs.take 500, splitCharsAux 500 399 n (cs.drop (399 + 1)) (start + (399 + 1)),
        by simp only [splitCharsAux, if_neg hle], ?_⟩
      simp [List.take_take]

/-- Adjacent chunks of `splitCharsAux 500 399`: the earlier one holds exactly
500 characters, the later one starts 400 characters further, and the trailing
100 characters of the earlier chunk are the leading 100 of the later one. -/
theorem splitCharsAux_adjacent :
    ∀ (n : Nat) (cs : List Char) (start : Nat)
      (pre : List (List Char × Nat)) (c1 c2 : List Char × Nat)
      (post : List (List Char × Nat)), cs.length ≤ n →
      splitCharsAux 500 399 n cs start = pre ++ c1 :: c2 :: post →
      c1.1.length = 500 ∧ c2.2 = c1.2 + 400 ∧ c1.1.drop 400 = c2.1.take 100 := by
  intro n
  induction n with
  | zero =>
    intro cs start pre c1 c2 post hlen heq
    have hl := congrArg List.length heq
    simp [splitCharsAux] at hl
    omega
  | succ n ih =>
    intro cs start pre c1 c2 post hlen heq
    by_cases hle : cs.length ≤ 500
    · rw [splitCharsAux, if_pos hle] at heq
      have hl := congrArg List.length heq
      simp at hl
      omega
    · rw [splitCharsAux, if_neg hle] at heq
      cases pre with
      | nil =>
        rcases splitCharsAux_head n (cs.drop (399 + 1)) (start + (399 + 1)) with
          ⟨t, rest, hrec, htake⟩
        rw [hrec] at heq
        simp only [List.nil_append, List.cons.injEq] at heq
        rcases heq with ⟨h1, h2, _⟩
        subst h1
        refine ⟨by simp [List.length_take]; omega, ?_, ?_⟩
        · rw [← h2]
        · rw [← h2]
          simp only
          rw [List.drop_take, htake]
      | cons q pre =>
        simp only [List.cons_append, List.cons.injEq] at heq
        refine ih (cs.drop (399 + 1)) (start + (399 + 1)) pre c1 c2 post ?_ heq.2
        simp only [List.length_drop]
        omega

/-- A doubly-consed decomposition of a mapped list lifts back to the original
list. -/
theorem map_decomp {α β : Type} (f : α → β) :
    ∀ (l : List α) (pre : List β) (c1 c2 : β) (post : List β),
      l.map f = pre ++ c1 :: c2 :: post →
      ∃ pre0 p1 p2 post0, l = pre0 ++ p1 :: p2 :: post0 ∧
        f p1 = c1 ∧ f p2 = c2 := by
  intro l
  induction l with
  | nil =>
    intro pre c1 c2 post heq
    have hl := congrArg List.length heq
    simp at hl
    omega
  | cons a l ih =>
    intro pre c1 c2 post heq
    cases pre with
    | nil =>
      simp only [List.map_cons, List.nil_append, List.cons.injEq] at heq
      rcases heq with ⟨ha, htail⟩
      cases l with
      | nil => simp at htail
      | cons b l2 =>
        simp only [List.map_cons, List.cons.injEq] at htail
        exact ⟨[], a, b, l2, rfl, ha, htail.1⟩
    | cons q pre =>
      simp only [List.map_cons, List.cons_append, List.cons.injEq] at heq
      rcases ih pre c1 c2 post heq.2 with ⟨pre0, p1, p2, post0, hl, h1, h2⟩
      exact ⟨a :: pre0, p1, p2, post0, by rw [hl]; simp, h1, h2⟩

/-- C6: for every Document, any two consecutive Chunks the splitter produces
from it overlap by exactly `overlap_size = 100` characters — the earlier chunk
holds exactly `chunk_size = 500` characters (only the final chunk may be
shorter), the later chunk starts 400 characters further, and the trailing 100
characters of the earlier chunk equal the leading 100 characters of the later
one. -/
theorem C6_chunk_overlap (d : Document) (pre : List Chunk) (c1 c2 : Chunk)
    (post : List Chunk) (heq : text_spliter [d] = pre ++ c1 :: c2 :: post) :
    c1.text.length = 500 ∧ c2.startIndex = c1.startIndex + 400 ∧
      c1.text.data.drop 400 = c2.text.data.take 100 ∧
      (c1.text.data.drop 400).length = 100 := by
  have hsplit : text_spliter [d] = splitDocument d := by
    simp [text_spliter]
  rw [hsplit] at heq
  unfold splitDocument at heq
  by_cases hnil : d.text.data = []
  · rw [if_pos hnil] at heq
    have hl := congrArg List.length heq
    simp at hl
    omega
  · rw [if_neg hnil] at heq
    rcases map_decomp _ _ _ _ _ _ heq with ⟨pre0, p1, p2, post0, hl, h1, h2⟩
    rcases splitCharsAux_adjacent d.text.data.length d.text.data 0 pre0 p1 p2
        post0 le_rfl hl with ⟨hlen, hst, hover⟩
    subst h1
    subst h2
    refine ⟨by simpa [String.length_mk] using hlen, hst, hover, ?_⟩
    simp only [List.length_drop]
    omega

set_option maxRecDepth 20000 in
theorem C6_chunk_overlap_witness :
    text_spliter [⟨String.mk (List.replicate 600 'a'), "a.txt"⟩] =
        [] ++ (⟨String.mk (List.replicate 500 'a'), "a.txt", 0⟩ : Chunk) ::
          (⟨String.mk (List.replicate 200 'a'), "a.txt", 400⟩ : Chunk) :: [] ∧
      (⟨String.mk (List.replicate 500 'a'), "a.txt", 0⟩ : Chunk).text.length = 500 ∧
      (⟨String.mk (List.replicate 200 'a'), "a.txt", 400⟩ : Chunk).startIndex =
        (⟨String.mk (List.replicate 500 'a'), "a.txt", 0⟩ : Chunk).startIndex + 400 := by
  have h : text_spliter [⟨String.mk (List.replicate 600 'a'), "a.txt"⟩] =
      [] ++ (⟨String.mk (List.replicate 500 'a'), "a.txt", 0⟩ : Chunk) ::
        (⟨String.mk (List.replicate 200 'a'), "a.txt", 400⟩ : Chunk) :: [] := by decide
  have hc := C6_chunk_overlap _ _ _ _ _ h
  exact ⟨h, hc.1, hc.2.1⟩

/-- C7: the splitter is deterministic — it is a pure function of the document
list (and the fixed `chunk_size`/`chunk_overlap`), so two runs on equal inputs
yield identical chunk sequences. -/
theorem C7_splitter_deterministic (docs1 docs2 : List Document)
    (h : docs1 = docs2) : text_spliter docs1 = text_spliter docs2 := by
  rw [h]

theorem C7_splitter_deterministic_witness :
    [(⟨"hello", "a.txt"⟩ : Document)] = [⟨"hello", "a.txt"⟩] ∧
      text_spliter [⟨"hello", "a.txt"⟩] = text_spliter [⟨"hello", "a.txt"⟩] :=
  ⟨rfl, C7_splitter_deterministic [⟨"hello", "a.txt"⟩] [⟨"hello", "a.txt"⟩] rfl⟩

/-! ## Loader

`load_documents` dispatches on the path suffix (`str.endswith` in Python) and
reads files through langchain loaders, whose code is not under `src/`.  The
filesystem and the parsers are an oracle `FileSys`; per the spec (§4.1), a
plain-text file is read with UTF-8 first and retried with Latin-1 on a decode
failure, so the oracle reports each attempt's outcome (`none` = the attempt
raises, i.e. `UnicodeDecodeError` for the UTF-8 read, any exception for the
Latin-1 retry, exactly the exceptions the source catches). -/

/-- Python's `str.endswith`: the last characters of `p` spell `s`. -/
def strEndsWith (p s : String) : Bool :=
  if s.data.length ≤ p.data.length then
    decide (p.data.drop (p.data.length - s.data.length) = s.data)
  else false

/-- Modelled from the spec: the filesystem and the langchain parsers
(`TextLoader`, `PyPDFLoader`, `UnstructuredMarkdownLoader` are not under
`src/`).  `utf8Read`/`latin1Read` give the text a `TextLoader` read of the
named file yields with that encoding (`none` when the attempt raises);
`pdfLoad`/`mdLoad` give the documents the PDF/markdown parsers produce.
Failure modes of the PDF/markdown parsers are exercised by no claim and are
not modelled. -/
structure FileSys where
  utf8Read : String → Option String
  latin1Read : String → Option String
  pdfLoad : String → List Document
  mdLoad : String → List Document

/-- The documents one path contributes in `load_documents` (or the
configuration error it raises). -/
def fileDocs (fs : FileSys) (p : String) : Except PyError (List Document) :=
  if strEndsWith p ".pdf" then Except.ok (fs.pdfLoad p)
  else if strEndsWith p ".md" then Except.ok (fs.mdLoad p)
  else if strEndsWith p ".txt" then
    match fs.utf8Read p with
    | some t => Except.ok [⟨t, p⟩]
    | none =>
      match fs.latin1Read p with
      | some t => Except.ok [⟨t, p⟩]
      | none => Except.ok []
  else Except.error (PyError.valueError ("Unsupported file type: " ++ p))

/-- The loop of `load_documents`, accumulating documents in order. -/
def loadLoop (fs : FileSys) : List String → List Document →
    Except PyError (List Document)
  | [], acc => Except.ok acc
  | p :: ps, acc =>
    match fileDocs fs p with
    | Except.ok ds => loadLoop fs ps (acc ++ ds)
    | Except.error e => Except.error e

/-- `load_documents` from the source: fold every path's contribution, aborting
with the `ValueError` on the first unsupported extension. -/
def load_documents (fs : FileSys) (files_paths : List String) :
    Except PyError (List Document) :=
  loadLoop fs files_paths []

/-- Unfolding characterization of `strEndsWith`. -/
theorem strEndsWith_eq_true {p s : String} :
    strEndsWith p s = true ↔
      s.data.length ≤ p.data.length ∧
        p.data.drop (p.data.length - s.data.length) = s.data := by
  unfold strEndsWith
  by_cases hle : s.data.length ≤ p.data.length
  · simp [hle]
  · simp [hle]

/-- A path ending in `".txt"` does not end in `".pdf"`. -/
theorem txt_not_pdf {p : String} (h : strEndsWith p ".txt" = true) :
    strEndsWith p ".pdf" = false := by
  rw [strEndsWith_eq_true] at h
  rw [Bool.eq_false_iff, ne_eq, strEndsWith_eq_true]
  rintro ⟨hle, hdrop⟩
  have h2 := h.2
  have hlen4 : (".txt" : String).data.length = (".pdf" : String).data.length := rfl
  rw [hlen4] at h2
  rw [hdrop] at h2
  exact absurd h2 (by decide)

/-- A path ending in `".txt"` does not end in `".md"`. -/
theorem txt_not_md {p : String} (h : strEndsWith p ".txt" = true) :
    strEndsWith p ".md" = false := by
  rw [strEndsWith_eq_true] at h
  rw [Bool.eq_false_iff, ne_eq, strEndsWith_eq_true]
  rintro ⟨hle, hdrop⟩
  rcases h with ⟨hle4, hdrop4⟩
  have h4 : (".txt" : String).data.length = 4 := rfl
  have h3 : (".md" : String).data.length = 3 := rfl
  rw [h4] at hle4 hdrop4
  rw [h3] at hle hdrop
  have hdd : p.data.drop (p.data.length - 3) =
      (p.data.drop (p.data.length - 4)).drop 1 := by
    rw [List.drop_drop]
    congr 1
    omega
  rw [hdrop, hdrop4] at hdd
  exact absurd hdd (by decide)

/-- Appending path lists composes `loadLoop` sequentially. -/
theorem loadLoop_append (fs : FileSys) :
    ∀ (xs ys : List String) (acc : List Document),
      loadLoop fs (xs ++ ys) acc =
        match loadLoop fs xs acc with
        | Except.ok acc2 => loadLoop fs ys acc2
        | Except.error e => Except.error e := by
  intro xs
  induction xs with
  | nil => intro ys acc; simp [loadLoop]
  | cons p ps ih =>
    intro ys acc
    simp only [List.cons_append, loadLoop]
    cases fileDocs fs p with
    | ok ds => exact ih ys (acc ++ ds)
    | error e => rfl

/-- C8: a plain-text (`.txt`) file is read as UTF-8 first; on a decode failure
it is retried as Latin-1; if that also fails, that single file is skipped and
loading continues, so the result on the whole batch equals the result with the
bad file removed — Documents from all other files are still returned. -/
theorem C8_txt_fallback_skip (fs : FileSys) (p : String)
    (hp : strEndsWith p ".txt" = true) :
    (∀ (ps : List String) (acc : List Document) (t : String),
        fs.utf8Read p = some t →
        loadLoop fs (p :: ps) acc = loadLoop fs ps (acc ++ [⟨t, p⟩])) ∧
      (∀ (ps : List String) (acc : List Document) (t : String),
        fs.utf8Read p = none → fs.latin1Read p = some t →
        loadLoop fs (p :: ps) acc = loadLoop fs ps (acc ++ [⟨t, p⟩])) ∧
      (∀ (ps : List String) (acc : List Document),
        fs.utf8Read p = none → fs.latin1Read p = none →
        loadLoop fs (p :: ps) acc = loadLoop fs ps acc) ∧
      (∀ (pre post : List String),
        fs.utf8Read p = none → fs.latin1Read p = none →
        load_documents fs (pre ++ p :: post) = load_documents fs (pre ++ post)) := by
  have hstep : ∀ (ps : List String) (acc : List Document),
      loadLoop fs (p :: ps) acc =
        match fileDocs fs p with
        | Except.ok ds => loadLoop fs ps (acc ++ ds)
        | Except.error e => Except.error e := by
    intro ps acc
    rfl
  have hdocs : ∀ r, fileDocs fs p = r →
      (∀ t, fs.utf8Read p = some t → r = Except.ok [⟨t, p⟩]) ∧
      (∀ t, fs.utf8Read p = none → fs.latin1Read p = some t → r = Except.ok [⟨t, p⟩]) ∧
      (fs.utf8Read p = none → fs.latin1Read p = none → r = Except.ok []) := by
    intro r hr
    unfold fileDocs at hr
    rw [txt_not_pdf hp, txt_not_md hp, hp] at hr
    simp only [Bool.false_eq_true, if_false, if_true] at hr
    refine ⟨?_, ?_, ?_⟩
    · intro t ht; rw [ht] at hr; exact hr.symm
    · intro t hu hl; rw [hu, hl] at hr; exact hr.symm
    · intro hu hl; rw [hu, hl] at hr; exact hr.symm
  rcases hdocs (fileDocs fs p) rfl with ⟨h1, h2, h3⟩
  refine ⟨?_, ?_, ?_, ?_⟩
  · intro ps acc t ht
    rw [hstep, h1 t ht]
  · intro ps acc t hu hl
    rw [hstep, h2 t hu hl]
  · intro ps acc hu hl
    rw [hstep, h3 hu hl]
    simp
  · intro pre post hu hl
    unfold load_documents
    rw [loadLoop_append, loadLoop_append]
    cases loadLoop fs pre [] with
    | ok acc2 =>
      simp only
      rw [hstep, h3 hu hl]
      simp
    | error e => rfl

theorem C8_txt_fallback_skip_witness :
    strEndsWith "bad.txt" ".txt" = true ∧
      load_documents
          { utf8Read := fun _ => none, latin1Read := fun _ => none,
            pdfLoad := fun q => [⟨"pdf text", q⟩], mdLoad := fun _ => [] }
          (["doc.pdf"] ++ "bad.txt" :: ["other.pdf"]) =
        load_documents
          { utf8Read := fun _ => none, latin1Read := fun _ => none,
            pdfLoad := fun q => [⟨"pdf text", q⟩], mdLoad := fun _ => [] }
          (["doc.pdf"] ++ ["other.pdf"]) :=
  ⟨by decide,
    (C8_txt_fallback_skip
      { utf8Read := fun _ => none, latin1Read := fun _ => none,
        pdfLoad := fun q => [⟨"pdf text", q⟩], mdLoad := fun _ => [] }
      "bad.txt" (by decide)).2.2.2 ["doc.pdf"] ["other.pdf"] rfl rfl⟩

/-- C9: a list of file paths containing a path with an unsupported extension
(not `.pdf`, `.md`, `.txt`) makes `load_documents` raise the `ValueError`
configuration error for such a path, aborting the entire call: the result is
an error carrying no Document list, whatever was already processed. -/
theorem C9_unsupported_aborts (fs : FileSys) (paths : List String) (p : String)
    (hmem : p ∈ paths) (hpdf : strEndsWith p ".pdf" = false)
    (hmd : strEndsWith p ".md" = false) (htxt : strEndsWith p ".txt" = false) :
    ∃ q, (strEndsWith q ".pdf" = false ∧ strEndsWith q ".md" = false ∧
        strEndsWith q ".txt" = false) ∧
      load_documents fs paths =
        Except.error (PyError.valueError ("Unsupported file type: " ++ q)) := by
  have main : ∀ (ps : List String) (acc : List Document), p ∈ ps →
      ∃ q, (strEndsWith q ".pdf" = false ∧ strEndsWith q ".md" = false ∧
          strEndsWith q ".txt" = false) ∧
        loadLoop fs ps acc =
          Except.error (PyError.valueError ("Unsupported file type: " ++ q)) := by
    intro ps
    induction ps with
    | nil => intro acc h; simp at h
    | cons a ps ih =>
      intro acc hmem2
      by_cases hsupp : fileDocs fs a = Except.error
          (PyError.valueError ("Unsupported file type: " ++ a))
      · refine ⟨a, ?_, ?_⟩
        · unfold fileDocs at hsupp
          by_cases h1 : strEndsWith a ".pdf" = true
          · rw [if_pos h1] at hsupp; exact absurd hsupp (by simp)
          · by_cases h2 : strEndsWith a ".md" = true
            · rw [if_neg h1, if_pos h2] at hsupp; exact absurd hsupp (by simp)
            · by_cases h3 : strEndsWith a ".txt" = true
              · rw [if_neg h1, if_neg h2, if_pos h3] at hsupp
                cases hu : fs.utf8Read a with
                | some t => rw [hu] at hsupp; exact absurd hsupp (by simp)
                | none =>
                  rw [hu] at hsupp
                  cases hl : fs.latin1Read a with
                  | some t => rw [hl] at hsupp; exact absurd hsupp (by simp)
                  | none => rw [hl] at hsupp; exact absurd hsupp (by simp)
              · exact ⟨by simpa using h1, by simpa using h2, by simpa using h3⟩
        · show (match fileDocs fs a with
            | Except.ok ds => loadLoop fs ps (acc ++ ds)
            | Except.error e => Except.error e) = _
          rw [hsupp]
      · have ha : ∃ ds, fileDocs fs a = Except.ok ds := by
          unfold fileDocs at hsupp ⊢
          by_cases h1 : strEndsWith a ".pdf" = true
          · exact ⟨_, by rw [if_pos h1]⟩
          · by_cases h2 : strEndsWith a ".md" = true
            · exact ⟨_, by rw [if_neg h1, if_pos h2]⟩
            · by_cases h3 : strEndsWith a ".txt" = true
              · rw [if_neg h1, if_neg h2, if_pos h3] at hsupp ⊢
                cases hu : fs.utf8Read a with
                | some t => exact ⟨_, rfl⟩
                | none =>
                  cases hl : fs.latin1Read a with
                  | some t => exact ⟨_, rfl⟩
                  | none => exact ⟨_, rfl⟩
              · rw [if_neg h1, if_neg h2, if_neg h3] at hsupp
                exact absurd rfl hsupp
        rcases ha with ⟨ds, hds⟩
        have hpmem : p ∈ ps := by
          rcases List.mem_cons.mp hmem2 with hpa | hps
          · subst hpa
            unfold fileDocs at hds
            rw [hpdf, hmd, htxt] at hds
            simp at hds
          · exact hps
        rcases ih (acc ++ ds) hpmem with ⟨q, hq, hloop⟩
        refine ⟨q, hq, ?_⟩
        show (match fileDocs fs a with
          | Except.ok ds => loadLoop fs ps (acc ++ ds)
          | Except.error e => Except.error e) = _
        rw [hds]
        exact hloop
  exact main paths [] hmem

theorem C9_unsupported_aborts_witness :
    ("notes.docx" ∈ ["doc.pdf", "notes.docx"] ∧
        strEndsWith "notes.docx" ".pdf" = false ∧
        strEndsWith "notes.docx" ".md" = false ∧
        strEndsWith "notes.docx" ".txt" = false) ∧
      ∃ q, (strEndsWith q ".pdf" = false ∧ strEndsWith q ".md" = false ∧
          strEndsWith q ".txt" = false) ∧
        load_documents
            { utf8Read := fun _ => none, latin1Read := fun _ => none,
              pdfLoad := fun q2 => [⟨"pdf text", q2⟩], mdLoad := fun _ => [] }
            ["doc.pdf", "notes.docx"] =
          Except.error (PyError.valueError ("Unsupported file type: " ++ q)) :=
  ⟨⟨by decide, by decide, by decide, by decide⟩,
    C9_unsupported_aborts
      { utf8Read := fun _ => none, latin1Read := fun _ => none,
        pdfLoad := fun q2 => [⟨"pdf text", q2⟩], mdLoad := fun _ => [] }
      ["doc.pdf", "notes.docx"] "notes.docx" (by decide) (by decide) (by decide)
      (by decide)⟩

/-! ## Index store state and module state

`PState` packs the remote index-service state (named indexes with their
records), the module-global `_vector_db` handle, a counter allocating handle
identities (each `Pinecone.from_existing_index` / `Pinecone.from_documents`
call constructs a fresh client object), and a log of the external service
calls made by `save_to_pinecone` (used to state that the pipeline never
retries).  `Env` holds the configuration (`PINECONE_API_KEY`,
`PINECONE_INDEX_NAME`), the relevance scores the embedding + index services
assign (as an oracle), and injectable outcomes of the fallible service calls
(`none` = the call succeeds, `some e` = it raises `e`). -/

/-- A langchain `Pinecone` vector-store handle: an object identity plus the
index it is bound to. -/
structure Handle where
  hid : Nat
  index : String
deriving DecidableEq

/-- A remote index: its fixed dimension and its stored records (each record
keeps the chunk it was built from; vectors live behind the score oracle). -/
structure RemoteIndex where
  dim : Nat
  records : List Chunk
deriving DecidableEq

/-- The mutable state: remote indexes by name, the module-global `_vector_db`,
the handle-identity allocator, and the external-call log. -/
structure PState where
  remote : List (String × RemoteIndex)
  vectorDb : Option Handle
  nextId : Nat
  log : List String
deriving DecidableEq

/-- Configuration and external-service oracle. -/
structure Env where
  pineconeApiKey : Option String
  indexName : String
  score : String → Chunk → Rat
  listFail : Option PyError
  deleteFail : Option PyError
  createFail : Option PyError
  upsertFail : Option PyError

/-- Python truthiness of the `PINECONE_API_KEY` environment value
(`if not PINECONE_API_KEY:` — unset and empty are both falsy). -/
def keyTruthy : Option String → Bool
  | none => false
  | some k => if k = "" then false else true

/-- Append one external call to the log. -/
def addLog (s : PState) (op : String) : PState :=
  { s with log := s.log ++ [op] }

/-- Look up an index by name (`pinecone.list_indexes().names()` membership and
record access). -/
def findIndex : List (String × RemoteIndex) → String → Option RemoteIndex
  | [], _ => none
  | (n, idx) :: rest, name => if n = name then some idx else findIndex rest name

/-- `PINECONE_INDEX_NAME in pinecone.list_indexes().names()`. -/
def hasIndex (remote : List (String × RemoteIndex)) (name : String) : Bool :=
  (findIndex remote name).isSome

/-- The records of the named index (empty when the index is absent; no claim
queries through a stale handle after an external deletion). -/
def recordsOf (remote : List (String × RemoteIndex)) (name : String) : List Chunk :=
  match findIndex remote name with
  | some idx => idx.records
  | none => []

/-- `pinecone.delete_index(name)`: remove the named index. -/
def removeIndex : List (String × RemoteIndex) → String → List (String × RemoteIndex)
  | [], _ => []
  | (n, idx) :: rest, name =>
    if n = name then removeIndex rest name else (n, idx) :: removeIndex rest name

/-- Upserting records (`Pinecone.from_documents`): append the chunks to the
named index's records. -/
def addRecords : List (String × RemoteIndex) → String → List Chunk →
    List (String × RemoteIndex)
  | [], _, _ => []
  | (n, idx) :: rest, name, chunks =>
    if n = name then (n, { idx with records := idx.records ++ chunks }) :: rest
    else (n, idx) :: addRecords rest name chunks

/-- `get_vector_db` from the source: return the module-global handle,
lazily constructing it from the existing index; if the key is falsy or the
index does not exist, print a message and return `None` without touching the
remote service state.  (Service failures during the existence check are
exercised by no claim and are not injected here.) -/
def get_vector_db (env : Env) (s : PState) : Option Handle × PState :=
  match s.vectorDb with
  | some h => (some h, s)
  | none =>
    if keyTruthy env.pineconeApiKey then
      if hasIndex s.remote env.indexName then
        let h : Handle := ⟨s.nextId, env.indexName⟩
        (some h, { s with vectorDb := some h, nextId := s.nextId + 1 })
      else (none, s)
    else (none, s)

/-- `close_vector_db` from the source: reset the module-global handle. -/
def close_vector_db (s : PState) : PState :=
  { s with vectorDb := none }

/-- `save_to_pinecone` from the source: raise `ValueError` on a falsy key;
with `overwrite` and an existing index, delete it (resetting `_vector_db` to
`None`); create the index when absent (dimension 1536); embed and upsert the
chunks (`Pinecone.from_documents`), storing the fresh handle in `_vector_db`.
Each external call is logged once per call site; an injected failure raises
after the attempt is logged. -/
def save_to_pinecone (env : Env) (chunks : List Chunk) (overwrite : Bool)
    (s : PState) : Except PyError Handle × PState :=
  if keyTruthy env.pineconeApiKey = false then
    (Except.error (PyError.valueError "PINECONE_API_KEY is not set."), s)
  else
    match
      (if overwrite then
        match env.listFail with
        | some e => (Except.error e, addLog s "list_indexes")
        | none =>
          let s1 := addLog s "list_indexes"
          if hasIndex s1.remote env.indexName then
            match env.deleteFail with
            | some e => (Except.error e, addLog s1 "delete_index")
            | none =>
              (Except.ok (), { addLog s1 "delete_index" with
                remote := removeIndex s1.remote env.indexName, vectorDb := none })
          else (Except.ok (), s1)
      else (Except.ok (), s) : Except PyError Unit × PState)
    with
    | (Except.error e, s2) => (Except.error e, s2)
    | (Except.ok _, s2) =>
      match env.listFail with
      | some e => (Except.error e, addLog s2 "list_indexes")
      | none =>
        let s3 := addLog s2 "list_indexes"
        match
          (if hasIndex s3.remote env.indexName then (Except.ok (), s3)
          else
            match env.createFail with
            | some e => (Except.error e, addLog s3 "create_index")
            | none =>
              (Except.ok (), { addLog s3 "create_index" with
                remote := (env.indexName, ⟨1536, []⟩) :: s3.remote }) :
            Except PyError Unit × PState)
        with
        | (Except.error e, s4) => (Except.error e, s4)
        | (Except.ok _, s4) =>
          match env.upsertFail with
          | some e => (Except.error e, addLog s4 "from_documents")
          | none =>
            let h : Handle := ⟨s4.nextId, env.indexName⟩
            (Except.ok h, { addLog s4 "from_documents" with
              remote := addRecords s4.remote env.indexName chunks,
              vectorDb := some h, nextId := s4.nextId + 1 })

/-! ## Query engine -/

/-- Descending order on scored records. -/
def scoreGe (a b : Chunk × Rat) : Prop := b.2 ≤ a.2

instance : DecidableRel scoreGe := fun a b => inferInstanceAs (Decidable (b.2 ≤ a.2))

instance : IsTotal (Chunk × Rat) scoreGe := ⟨fun a b => le_total b.2 a.2⟩

instance : IsTrans (Chunk × Rat) scoreGe := ⟨fun _ _ _ hab hbc => le_trans hbc hab⟩

/-- Python's `sorted(results, key=lambda x: x[1], reverse=True)`. -/
def sortDesc (l : List (Chunk × Rat)) : List (Chunk × Rat) :=
  l.insertionSort scoreGe

/-- The index service's `similarity_search_with_relevance_scores`: score every
stored record against the query and return the `k` best, highest first. -/
def searchIndex (score : String → Chunk → Rat) (recs : List Chunk) (q : String)
    (k : Nat) : List (Chunk × Rat) :=
  (sortDesc (recs.map fun c => (c, score q c))).take k

/-- The records the index store hands `query_data` for a query against the
state reached after the lazy `get_vector_db` initialization. -/
def searchResults (env : Env) (q : String) (k : Nat) (s : PState) :
    List (Chunk × Rat) :=
  searchIndex env.score (recordsOf (get_vector_db env s).2.remote env.indexName) q k

/-- `query_data` from the source: with no handle available, print and return
the empty list; otherwise run the top-`k` search, return the empty list when
nothing comes back or the first result's score misses the threshold, and
otherwise return the results sorted descending by score, truncated to `k`. -/
def query_data (env : Env) (q : String) (similarity_threshold : Rat) (k : Nat)
    (s : PState) : List (Chunk × Rat) × PState :=
  match get_vector_db env s with
  | (none, s1) => ([], s1)
  | (some _, s1) =>
    let results := searchIndex env.score (recordsOf s1.remote env.indexName) q k
    match results with
    | [] => ([], s1)
    | (_, sc0) :: _ =>
      if sc0 < similarity_threshold then ([], s1)
      else ((sortDesc results).take k, s1)

/-- `process_files` from the source: load, split and save, catching every
exception into a `(False, str(e))` result and reporting success otherwise. -/
def process_files (env : Env) (fs : FileSys) (files_paths : List String)
    (overwrite : Bool) (s : PState) : (Bool × String) × PState :=
  if files_paths = [] then
    ((false, "Either files_path or directory_path must be provided."), s)
  else
    match load_documents fs files_paths with
    | Except.error e => ((false, errStr e), s)
    | Except.ok docs =>
      match save_to_pinecone env (text_spliter docs) overwrite s with
      | (Except.error e, s2) => ((false, errStr e), s2)
      | (Except.ok _, s2) =>
        ((true, "Files processed and saved to vector database successfully."), s2)

/-! ## Query-engine lemmas -/

/-- `sortDesc` permutes its input. -/
theorem sortDesc_perm (l : List (Chunk × Rat)) : (sortDesc l).Perm l :=
  List.perm_insertionSort scoreGe l

/-- `sortDesc` sorts descending by score. -/
theorem sortDesc_sorted (l : List (Chunk × Rat)) : List.Sorted scoreGe (sortDesc l) :=
  List.sorted_insertionSort scoreGe l

/-- The first element of a `sortDesc` output dominates every input score. -/
theorem sortDesc_head_max {l : List (Chunk × Rat)} {p0 : Chunk × Rat}
    {tl : List (Chunk × Rat)} (hs : sortDesc l = p0 :: tl) :
    ∀ p ∈ l, p.2 ≤ p0.2 := by
  intro p hp
  have hmem : p ∈ p0 :: tl := by
    rw [← hs]
    exact ((sortDesc_perm l).mem_iff).mpr hp
  rcases List.mem_cons.mp hmem with heq | htl
  · rw [heq]
  · have hsor := sortDesc_sorted l
    rw [hs] at hsor
    exact List.rel_of_sorted_cons hsor p htl

/-- The search returns at most `k` records. -/
theorem searchIndex_length_le (score : String → Chunk → Rat) (recs : List Chunk)
    (q : String) (k : Nat) : (searchIndex score recs q k).length ≤ k :=
  List.length_take_le k _

/-- Every record the search returns is a stored record, scored by the
oracle. -/
theorem mem_searchIndex {score : String → Chunk → Rat} {recs : List Chunk}
    {q : String} {k : Nat} {p : Chunk × Rat}
    (hp : p ∈ searchIndex score recs q k) : p.1 ∈ recs ∧ p.2 = score q p.1 := by
  have h1 : p ∈ sortDesc (recs.map fun c => (c, score q c)) := List.mem_of_mem_take hp
  have h2 : p ∈ recs.map fun c => (c, score q c) :=
    ((sortDesc_perm _).mem_iff).mp h1
  rcases List.mem_map.mp h2 with ⟨c, hc, hpc⟩
  rw [← hpc]
  exact ⟨hc, rfl⟩

/-- C1: with a handle available, if the Index Store returns no records, or the
first (highest-scoring) returned record's score is below the threshold,
`query_data` returns the empty list (a successful no-match value, not an
error — the function's return type carries no failure); otherwise it returns
all returned records sorted descending by score and truncated to `k`. -/
theorem C1_query_threshold_sort (env : Env) (q : String) (t : Rat) (k : Nat)
    (s : PState) (h : Handle) (hdb : (get_vector_db env s).1 = some h) :
    (searchResults env q k s = [] → (query_data env q t k s).1 = []) ∧
      (∀ c sc rest, searchResults env q k s = (c, sc) :: rest → sc < t →
        (query_data env q t k s).1 = []) ∧
      (∀ c sc rest, searchResults env q k s = (c, sc) :: rest → ¬ sc < t →
        (query_data env q t k s).1.Perm (searchResults env q k s) ∧
          List.Sorted scoreGe (query_data env q t k s).1 ∧
          (query_data env q t k s).1.length ≤ k) := by
  rcases hget : get_vector_db env s with ⟨g1, s1⟩
  rw [hget] at hdb
  simp only at hdb
  subst hdb
  have hres : searchResults env q k s =
      searchIndex env.score (recordsOf s1.remote env.indexName) q k := by
    unfold searchResults
    rw [hget]
  have hquery : query_data env q t k s =
      (match searchIndex env.score (recordsOf s1.remote env.indexName) q k with
      | [] => ([], s1)
      | (_, sc0) :: _ =>
        if sc0 < t then ([], s1)
        else ((sortDesc (searchIndex env.score (recordsOf s1.remote env.indexName) q k)).take k,
          s1)) := by
    unfold query_data
    rw [hget]
  refine ⟨?_, ?_, ?_⟩
  · intro hnil
    rw [hres] at hnil
    rw [hquery, hnil]
  · intro c sc rest hcons hlt
    rw [hres] at hcons
    rw [hquery, hcons]
    simp [hlt]
  · intro c sc rest hcons hge
    rw [hres] at hcons
    have hlen : (searchIndex env.score (recordsOf s1.remote env.indexName) q k).length ≤ k :=
      searchIndex_length_le _ _ _ _
    have hout : (query_data env q t k s).1 =
        sortDesc (searchIndex env.score (recordsOf s1.remote env.indexName) q k) := by
      rw [hquery, hcons]
      simp only [if_neg hge]
      rw [← hcons]
      exact List.take_of_length_le (((sortDesc_perm _).length_eq).trans_le hlen)
    rw [hres, hout]
    exact ⟨sortDesc_perm _, sortDesc_sorted _,
      ((sortDesc_perm _).length_eq).trans_le hlen⟩

/-! ## Concrete example data shared by the witnesses -/

/-- Example chunk scoring 9 on the query `"hit"`. -/
def chunkA : Chunk := ⟨"alpha", "a.txt", 0⟩

/-- Example chunk scoring 8 on the query `"hit"`. -/
def chunkB : Chunk := ⟨"beta", "b.txt", 0⟩

/-- Example relevance oracle: on `"hit"` the stored chunks score 9 and 8, on
any other query everything scores 2. -/
def exScore (q : String) (c : Chunk) : Rat :=
  if q = "hit" then (if c.text = "alpha" then 9 else 8) else 2

/-- Example environment with the key set, the default index name, and all
service calls succeeding. -/
def exEnv : Env :=
  { pineconeApiKey := some "k", indexName := "rag-ai-agent", score := exScore,
    listFail := none, deleteFail := none, createFail := none, upsertFail := none }

/-- Example cached handle. -/
def exHandle : Handle := ⟨7, "rag-ai-agent"⟩

/-- State with the index populated and the handle cached. -/
def exStateReady : PState :=
  { remote := [("rag-ai-agent", ⟨1536, [chunkA, chunkB]⟩)],
    vectorDb := some exHandle, nextId := 8, log := [] }

/-- State with the index populated but no handle cached yet. -/
def exStateNoHandle : PState :=
  { remote := [("rag-ai-agent", ⟨1536, [chunkA, chunkB]⟩)],
    vectorDb := none, nextId := 0, log := [] }

/-- State with no index and no handle. -/
def exStateNoIndex : PState :=
  { remote := [], vectorDb := none, nextId := 0, log := [] }

theorem C1_query_threshold_sort_witness :
    (get_vector_db exEnv exStateReady).1 = some exHandle ∧
      searchResults exEnv "hit" 3 exStateReady = [(chunkA, 9), (chunkB, 8)] ∧
      ¬ (9 : Rat) < 7 ∧
      ((query_data exEnv "hit" 7 3 exStateReady).1.Perm
          (searchResults exEnv "hit" 3 exStateReady) ∧
        List.Sorted scoreGe (query_data exEnv "hit" 7 3 exStateReady).1 ∧
        (query_data exEnv "hit" 7 3 exStateReady).1.length ≤ 3) :=
  ⟨by decide, by decide, by decide,
    (C1_query_threshold_sort exEnv "hit" 7 3 exStateReady exHandle (by decide)).2.2
      chunkA 9 [(chunkB, 8)] (by decide) (by decide)⟩

/-- C2 fails on the code: querying when no vector-database handle is available
(here: the target index does not exist, so `get_vector_db` yields `None`)
returns the very same successful empty-list value as the threshold-miss
outcome — `query_data` has no failure channel at all — rather than a distinct
explicit failure. -/
theorem C2_counterexample :
    hasIndex exStateNoIndex.remote exEnv.indexName = false ∧
      (get_vector_db exEnv exStateNoIndex).1 = none ∧
      (query_data exEnv "hit" 7 3 exStateNoIndex).1 =
        (query_data exEnv "other" 7 3 exStateReady).1 ∧
      (query_data exEnv "hit" 7 3 exStateNoIndex).1 = [] := by
  refine ⟨by decide, by decide, ?_, by decide⟩
  decide

/-- C2 (amended): querying when no vector-database handle is available (the
target index does not exist or the key is unset) returns the same successful
empty list as the threshold-miss outcome — the two cases are distinguished
only by a printed message, not by any explicit failure surfaced to the
caller. -/
theorem C2_amended_no_handle_empty (env : Env) (q : String) (t : Rat) (k : Nat)
    (s : PState) (hnone : (get_vector_db env s).1 = none) :
    (query_data env q t k s).1 = [] := by
  rcases hget : get_vector_db env s with ⟨g1, s1⟩
  rw [hget] at hnone
  simp only at hnone
  subst hnone
  unfold query_data
  rw [hget]

theorem C2_amended_no_handle_empty_witness :
    (get_vector_db exEnv exStateNoIndex).1 = none ∧
      (query_data exEnv "hit" 7 3 exStateNoIndex).1 = [] :=
  ⟨by decide, C2_amended_no_handle_empty exEnv "hit" 7 3 exStateNoIndex (by decide)⟩

/-! ## Ingestion lemmas -/

/-- A deleted index is gone. -/
theorem findIndex_removeIndex (l : List (String × RemoteIndex)) (name : String) :
    findIndex (removeIndex l name) name = none := by
  induction l with
  | nil => rfl
  | cons p rest ih =>
    rcases p with ⟨n, idx⟩
    unfold removeIndex
    by_cases hn : n = name
    · rw [if_pos hn]
      exact ih
    · rw [if_neg hn]
      unfold findIndex
      rw [if_neg hn]
      exact ih

/-- Deleting, recreating and upserting with `overwrite=True` on an existing
index: the full success path of `save_to_pinecone`, spelled out. -/
theorem save_overwrite_ok (env : Env) (chunks : List Chunk) (s : PState)
    (hkey : keyTruthy env.pineconeApiKey = true) (hlist : env.listFail = none)
    (hdel : env.deleteFail = none) (hcreate : env.createFail = none)
    (hup : env.upsertFail = none) (hhas : hasIndex s.remote env.indexName = true) :
    save_to_pinecone env chunks true s =
      (Except.ok ⟨s.nextId, env.indexName⟩,
        { remote := (env.indexName,
              ⟨1536, chunks⟩) :: removeIndex s.remote env.indexName,
          vectorDb := some ⟨s.nextId, env.indexName⟩,
          nextId := s.nextId + 1,
          log := s.log ++ ["list_indexes", "delete_index", "list_indexes",
            "create_index", "from_documents"] }) := by
  have hhas2 : hasIndex (removeIndex s.remote env.indexName) env.indexName = false := by
    unfold hasIndex
    rw [findIndex_removeIndex]
    rfl
  unfold save_to_pinecone
  rw [hkey, hlist, hdel, hcreate, hup]
  simp only [addLog, hhas, hhas2, Bool.true_eq_false, if_false, if_true,
    List.append_assoc, List.cons_append, List.nil_append]
  unfold addRecords
  simp

/-- `query_data` when the handle is available and the search comes back
empty. -/
theorem query_data_eq_nil (env : Env) (q : String) (t : Rat) (k : Nat)
    (s s1 : PState) (h : Handle) (hget : get_vector_db env s = (some h, s1))
    (hnil : searchIndex env.score (recordsOf s1.remote env.indexName) q k = []) :
    query_data env q t k s = ([], s1) := by
  unfold query_data
  rw [hget]
  simp [hnil]

/-- `query_data` when the first returned record misses the threshold. -/
theorem query_data_eq_low (env : Env) (q : String) (t : Rat) (k : Nat)
    (s s1 : PState) (h : Handle) (c : Chunk) (sc : Rat)
    (rest : List (Chunk × Rat)) (hget : get_vector_db env s = (some h, s1))
    (hcons : searchIndex env.score (recordsOf s1.remote env.indexName) q k =
      (c, sc) :: rest) (hlt : sc < t) : query_data env q t k s = ([], s1) := by
  unfold query_data
  rw [hget]
  simp [hcons, hlt]

/-- `query_data` when the first returned record meets the threshold. -/
theorem query_data_eq_high (env : Env) (q : String) (t : Rat) (k : Nat)
    (s s1 : PState) (h : Handle) (c : Chunk) (sc : Rat)
    (rest : List (Chunk × Rat)) (hget : get_vector_db env s = (some h, s1))
    (hcons : searchIndex env.score (recordsOf s1.remote env.indexName) q k =
      (c, sc) :: rest) (hge : ¬ sc < t) :
    query_data env q t k s = ((sortDesc ((c, sc) :: rest)).take k, s1) := by
  unfold query_data
  rw [hget]
  simp [hcons, hge]

/-- C4: ingesting with `overwrite=true` against an existing index deletes that
index (discarding every previously stored record) and recreates it before
upserting the new chunks: afterwards the index holds exactly the new chunks,
every query result comes from the new chunks (so a query for any old record
returns no match), and a new chunk meeting the threshold makes the result
nonempty (new content is retrievable). -/
theorem C4_overwrite_destroys (env : Env) (chunks : List Chunk) (s : PState)
    (idx : RemoteIndex) (hkey : keyTruthy env.pineconeApiKey = true)
    (hlist : env.listFail = none) (hdel : env.deleteFail = none)
    (hcreate : env.createFail = none) (hup : env.upsertFail = none)
    (hidx : findIndex s.remote env.indexName = some idx) :
    ∃ h s2, save_to_pinecone env chunks true s = (Except.ok h, s2) ∧
      findIndex s2.remote env.indexName = some ⟨1536, chunks⟩ ∧
      (∀ q t k p, p ∈ (query_data env q t k s2).1 → p.1 ∈ chunks) ∧
      (∀ q t k c, c ∈ chunks → 1 ≤ k → t ≤ env.score q c →
        (query_data env q t k s2).1 ≠ []) := by
  have hhas : hasIndex s.remote env.indexName = true := by
    unfold hasIndex
    rw [hidx]
    rfl
  have hsave := save_overwrite_ok env chunks s hkey hlist hdel hcreate hup hhas
  set s2 : PState :=
    { remote := (env.indexName, ⟨1536, chunks⟩) :: removeIndex s.remote env.indexName,
      vectorDb := some ⟨s.nextId, env.indexName⟩,
      nextId := s.nextId + 1,
      log := s.log ++ ["list_indexes", "delete_index", "list_indexes",
        "create_index", "from_documents"] } with hs2
  have hget2 : get_vector_db env s2 = (some ⟨s.nextId, env.indexName⟩, s2) := by
    rw [hs2]
    rfl
  have hrec : recordsOf s2.remote env.indexName = chunks := by
    rw [hs2]
    unfold recordsOf findIndex
    rw [if_pos rfl]
  refine ⟨⟨s.nextId, env.indexName⟩, s2, hsave, ?_, ?_, ?_⟩
  · rw [hs2]
    unfold findIndex
    rw [if_pos rfl]
  · intro q t k p hp
    rcases hsr : searchIndex env.score (recordsOf s2.remote env.indexName) q k with
      _ | ⟨⟨c0, sc0⟩, rest⟩
    · rw [query_data_eq_nil env q t k s2 s2 _ hget2 hsr] at hp
      simp at hp
    · by_cases hlt : sc0 < t
      · rw [query_data_eq_low env q t k s2 s2 _ c0 sc0 rest hget2 hsr hlt] at hp
        simp at hp
      · rw [query_data_eq_high env q t k s2 s2 _ c0 sc0 rest hget2 hsr hlt] at hp
        simp only at hp
        have h1 : p ∈ sortDesc ((c0, sc0) :: rest) := List.mem_of_mem_take hp
        have h2 : p ∈ searchIndex env.score (recordsOf s2.remote env.indexName) q k := by
          rw [hsr]
          exact ((sortDesc_perm _).mem_iff).mp h1
        have h3 := (mem_searchIndex h2).1
        rw [hrec] at h3
        exact h3
  · intro q t k c hc hk hscore
    have hmapne : (chunks.map fun c2 => (c2, env.score q c2)) ≠ [] := by
      simp only [ne_eq, List.map_eq_nil_iff]
      exact List.ne_nil_of_mem hc
    rcases hsd : sortDesc (chunks.map fun c2 => (c2, env.score q c2)) with _ | ⟨p0, tl⟩
    · have hlen := (sortDesc_perm (chunks.map fun c2 => (c2, env.score q c2))).length_eq
      rw [hsd] at hlen
      exact absurd (List.eq_nil_of_length_eq_zero hlen.symm) hmapne
    · have hsr : searchIndex env.score (recordsOf s2.remote env.indexName) q k =
          (p0 :: tl).take k := by
        unfold searchIndex
        rw [hrec, hsd]
      rcases k with _ | k2
      · omega
      · rw [List.take_succ_cons] at hsr
        have hmax : env.score q c ≤ p0.2 :=
          sortDesc_head_max hsd (c, env.score q c) (List.mem_map.mpr ⟨c, hc, rfl⟩)
        have hnlt : ¬ p0.2 < t := not_lt.mpr (le_trans hscore hmax)
        rcases p0 with ⟨c0, sc0⟩
        rw [query_data_eq_high env q t (k2 + 1) s2 s2 _ c0 sc0 (tl.take k2) hget2 hsr hnlt]
        simp only [ne_eq]
        intro hcontra
        rcases List.take_eq_nil_iff.mp hcontra with h0 | hnil2
        · omega
        · have hlen := (sortDesc_perm ((c0, sc0) :: tl.take k2)).length_eq
          rw [hnil2] at hlen
          simp at hlen

/-- New chunk used by the ingestion witnesses. -/
def chunkNew : Chunk := ⟨"gamma", "c.txt", 0⟩

theorem C4_overwrite_destroys_witness :
    (keyTruthy exEnv.pineconeApiKey = true ∧
        findIndex exStateReady.remote exEnv.indexName =
          some ⟨1536, [chunkA, chunkB]⟩) ∧
      ∃ h s2, save_to_pinecone exEnv [chunkNew] true exStateReady = (Except.ok h, s2) ∧
        findIndex s2.remote exEnv.indexName = some ⟨1536, [chunkNew]⟩ ∧
        (∀ q t k p, p ∈ (query_data exEnv q t k s2).1 → p.1 ∈ [chunkNew]) ∧
        (∀ q t k c, c ∈ [chunkNew] → 1 ≤ k → t ≤ exEnv.score q c →
          (query_data exEnv q t k s2).1 ≠ []) :=
  ⟨⟨by decide, by decide⟩,
    C4_overwrite_destroys exEnv [chunkNew] exStateReady ⟨1536, [chunkA, chunkB]⟩
      (by decide) rfl rfl rfl rfl (by decide)⟩

/-- C3: a transient service error raised by the embedding/upsert call
(`Pinecone.from_documents`, which embeds the chunks and writes them to the
index) is propagated to the caller — `save_to_pinecone` re-raises it, and
`process_files` surfaces it as a `(False, str(e))` failure result — and the
pipeline performs no retry of its own: the failing call is attempted exactly
once. -/
theorem C3_transient_error_propagated (env : Env) (fs : FileSys)
    (chunks : List Chunk) (paths : List String) (docs : List Document)
    (ov : Bool) (s : PState) (e : PyError)
    (hkey : keyTruthy env.pineconeApiKey = true) (hlist : env.listFail = none)
    (hdel : env.deleteFail = none) (hcreate : env.createFail = none)
    (hup : env.upsertFail = some e) :
    ((save_to_pinecone env chunks ov s).1 = Except.error e ∧
        (save_to_pinecone env chunks ov s).2.log.count "from_documents" =
          s.log.count "from_documents" + 1) ∧
      (paths ≠ [] → load_documents fs paths = Except.ok docs →
        (process_files env fs paths ov s).1 = (false, errStr e) ∧
          (process_files env fs paths ov s).2.log.count "from_documents" =
            s.log.count "from_documents" + 1) := by
  have key : ∀ chs : List Chunk, (save_to_pinecone env chs ov s).1 = Except.error e ∧
      (save_to_pinecone env chs ov s).2.log.count "from_documents" =
        s.log.count "from_documents" + 1 := by
    intro chs
    unfold save_to_pinecone
    rw [hkey, hlist, hdel, hcreate, hup]
    cases ov with
    | false =>
      by_cases hhas : hasIndex s.remote env.indexName = true
      · simp [addLog, hhas, List.count_append, List.count_cons]
      · simp only [Bool.not_eq_true] at hhas
        simp [addLog, hhas, List.count_append, List.count_cons]
    | true =>
      by_cases hhas : hasIndex s.remote env.indexName = true
      · have hhas2 : hasIndex (removeIndex s.remote env.indexName) env.indexName =
            false := by
          unfold hasIndex
          rw [findIndex_removeIndex]
          rfl
        simp [addLog, hhas, hhas2, List.count_append, List.count_cons]
      · simp only [Bool.not_eq_true] at hhas
        simp [addLog, hhas, List.count_append, List.count_cons]
  refine ⟨key chunks, ?_⟩
  intro hpne hload
  rcases hsp : save_to_pinecone env (text_spliter docs) ov s with ⟨r, s4⟩
  have hk := key (text_spliter docs)
  rw [hsp] at hk
  simp only at hk
  unfold process_files
  rw [if_neg hpne, hload]
  simp only [hsp, hk.1]
  exact ⟨trivial, hk.2⟩

/-- Filesystem oracle used by the witnesses: every `.txt` read succeeds. -/
def exFs : FileSys :=
  { utf8Read := fun _ => some "hello", latin1Read := fun _ => none,
    pdfLoad := fun _ => [], mdLoad := fun _ => [] }

/-- Environment whose embed-and-upsert call raises a transient timeout. -/
def exEnvUpFail : Env :=
  { exEnv with upsertFail := some (PyError.serviceError "timeout") }

theorem C3_transient_error_propagated_witness :
    (keyTruthy exEnvUpFail.pineconeApiKey = true ∧ exEnvUpFail.listFail = none ∧
        exEnvUpFail.deleteFail = none ∧ exEnvUpFail.createFail = none ∧
        exEnvUpFail.upsertFail = some (PyError.serviceError "timeout") ∧
        (["a.txt"] : List String) ≠ [] ∧
        load_documents exFs ["a.txt"] = Except.ok [⟨"hello", "a.txt"⟩]) ∧
      ((save_to_pinecone exEnvUpFail [chunkNew] false exStateNoHandle).1 =
          Except.error (PyError.serviceError "timeout") ∧
        (save_to_pinecone exEnvUpFail [chunkNew] false
              exStateNoHandle).2.log.count "from_documents" =
          exStateNoHandle.log.count "from_documents" + 1) ∧
      ((process_files exEnvUpFail exFs ["a.txt"] false exStateNoHandle).1 =
          (false, errStr (PyError.serviceError "timeout")) ∧
        (process_files exEnvUpFail exFs ["a.txt"] false
              exStateNoHandle).2.log.count "from_documents" =
          exStateNoHandle.log.count "from_documents" + 1) := by
  have happ := C3_transient_error_propagated exEnvUpFail exFs [chunkNew] ["a.txt"]
    [⟨"hello", "a.txt"⟩] false exStateNoHandle (PyError.serviceError "timeout")
    (by decide) rfl rfl rfl rfl
  exact ⟨⟨by decide, rfl, rfl, rfl, rfl, by decide, rfl⟩, happ.1,
    happ.2 (by decide) rfl⟩

/-- C10: `get_vector_db` never creates, deletes or writes to a remote index
(the remote state is untouched); with nothing cached it returns `None` when
the key is falsy or the index is absent, leaving the state unchanged, and
otherwise caches the fresh handle in the module-global `_vector_db`; with a
handle cached, every call returns that same object and changes nothing —
until `close_vector_db` resets the global to `None`, or a destructive
`overwrite` ingestion resets it to `None` (observable here when the
re-ingestion's upsert fails after the delete). -/
theorem C10_handle_lifecycle (env : Env) (s : PState) (h : Handle)
    (chunks : List Chunk) (e : PyError) :
    ((get_vector_db env s).2.remote = s.remote) ∧
      (s.vectorDb = none →
        (keyTruthy env.pineconeApiKey = false ∨
          hasIndex s.remote env.indexName = false) →
        get_vector_db env s = (none, s)) ∧
      (s.vectorDb = none → keyTruthy env.pineconeApiKey = true →
        hasIndex s.remote env.indexName = true →
        (get_vector_db env s).1 = some ⟨s.nextId, env.indexName⟩ ∧
          (get_vector_db env s).2.vectorDb = some ⟨s.nextId, env.indexName⟩) ∧
      (s.vectorDb = some h → get_vector_db env s = (some h, s)) ∧
      ((close_vector_db s).vectorDb = none) ∧
      (keyTruthy env.pineconeApiKey = true → env.listFail = none →
        env.deleteFail = none → env.createFail = none → env.upsertFail = some e →
        hasIndex s.remote env.indexName = true →
        (save_to_pinecone env chunks true s).2.vectorDb = none) := by
  refine ⟨?_, ?_, ?_, ?_, rfl, ?_⟩
  · cases hv : s.vectorDb with
    | some h0 => simp [get_vector_db, hv]
    | none =>
      by_cases hk : keyTruthy env.pineconeApiKey = true
      · by_cases hh : hasIndex s.remote env.indexName = true
        · simp [get_vector_db, hv, hk, hh]
        · simp only [Bool.not_eq_true] at hh
          simp [get_vector_db, hv, hk, hh]
      · simp only [Bool.not_eq_true] at hk
        simp [get_vector_db, hv, hk]
  · intro hv hor
    rcases hor with hk | hh
    · simp [get_vector_db, hv, hk]
    · by_cases hk : keyTruthy env.pineconeApiKey = true
      · simp [get_vector_db, hv, hk, hh]
      · simp only [Bool.not_eq_true] at hk
        simp [get_vector_db, hv, hk]
  · intro hv hk hh
    simp [get_vector_db, hv, hk, hh]
  · intro hv
    simp [get_vector_db, hv]
  · intro hk hlist hdel hcreate hup hhas
    have hhas2 : hasIndex (removeIndex s.remote env.indexName) env.indexName =
        false := by
      unfold hasIndex
      rw [findIndex_removeIndex]
      rfl
    unfold save_to_pinecone
    rw [hk, hlist, hdel, hcreate, hup]
    simp [addLog, hhas, hhas2]

theorem C10_handle_lifecycle_witness :
    ((get_vector_db exEnv exStateNoIndex).2.remote = exStateNoIndex.remote) ∧
      (get_vector_db exEnv exStateNoIndex = (none, exStateNoIndex)) ∧
      ((get_vector_db exEnv exStateNoHandle).1 = some ⟨0, "rag-ai-agent"⟩ ∧
        (get_vector_db exEnv exStateNoHandle).2.vectorDb =
          some ⟨0, "rag-ai-agent"⟩) ∧
      (get_vector_db exEnv exStateReady = (some exHandle, exStateReady)) ∧
      ((close_vector_db exStateReady).vectorDb = none) ∧
      ((save_to_pinecone exEnvUpFail [chunkNew] true exStateReady).2.vectorDb =
        none) :=
  ⟨(C10_handle_lifecycle exEnv exStateNoIndex exHandle [chunkNew]
      (PyError.serviceError "timeout")).1,
    (C10_handle_lifecycle exEnv exStateNoIndex exHandle [chunkNew]
      (PyError.serviceError "timeout")).2.1 rfl (Or.inr (by decide)),
    (C10_handle_lifecycle exEnv exStateNoHandle exHandle [chunkNew]
      (PyError.serviceError "timeout")).2.2.1 rfl (by decide) (by decide),
    (C10_handle_lifecycle exEnv exStateReady exHandle [chunkNew]
      (PyError.serviceError "timeout")).2.2.2.1 rfl,
    (C10_handle_lifecycle exEnv exStateReady exHandle [chunkNew]
      (PyError.serviceError "timeout")).2.2.2.2.1,
    (C10_handle_lifecycle exEnvUpFail exStateReady exHandle [chunkNew]
      (PyError.serviceError "timeout")).2.2.2.2.2 (by decide) rfl rfl rfl rfl
      (by decide)⟩

end VectorDatabase
